import Mathlib

/-!
Verification of the flow-reconstruction core of the traffic-gatherer service
(`traffic_gatherer/src/process.py`), a shallow embedding of
`process_tshark_output` and `int_to_ip` together with proofs and refutations
of the specified properties.

Timestamps are fractional seconds; we model them as rationals.  Pandas
DataFrame rows become `Packet` records, the per-key groups become lists of
packets, and the summary dictionaries built at the end of
`process_tshark_output` become `FlowSummary` records.
-/

namespace Process

/-- One parsed row of the tshark export after port resolution and protocol /
address normalization: columns `timestamp, src_ip, dst_ip, src_port,
dst_port, protocol, bytes` of the DataFrame. -/
structure Packet where
  timestamp : ℚ
  src_ip : String
  dst_ip : String
  src_port : Option ℤ
  dst_port : Option ℤ
  protocol : String
  bytes : ℤ
deriving DecidableEq, Repr

/-- The grouping key of `df.groupby(['src_ip', 'dst_ip', 'src_port',
'dst_port', 'protocol'])`. -/
structure FlowKey where
  src_ip : String
  dst_ip : String
  src_port : Option ℤ
  dst_port : Option ℤ
  protocol : String
deriving DecidableEq, Repr

/-- The grouping key of a packet row. -/
def packetKey (p : Packet) : FlowKey :=
  { src_ip := p.src_ip, dst_ip := p.dst_ip, src_port := p.src_port,
    dst_port := p.dst_port, protocol := p.protocol }

/-- `time_threshold = 30` (seconds), the idle threshold of the segmentation
loop. -/
def time_threshold : ℚ := 30

/-- Insert into a list sorted by timestamp. -/
def insertByTime (p : Packet) : List Packet → List Packet
  | [] => [p]
  | q :: qs => if p.timestamp ≤ q.timestamp then p :: q :: qs
               else q :: insertByTime p qs

/-- `group_df.sort_values(by=['timestamp'])`: ascending sort by timestamp.
(The Python call uses pandas' default quicksort, whose order on equal
timestamps is unspecified; we model the sort as insertion sort, and no
theorem below depends on the order of equal timestamps.) -/
def sortByTime (l : List Packet) : List Packet :=
  l.foldr insertByTime []

/-- The inner segmentation loop of `process_tshark_output`
(`for i in range(1, len(group_df))`): state is the open `segment` list and
the `flows` accumulator; `prev` is row `i-1` of the group.  When the gap
exceeds the threshold the code appends a snapshot of `segment` to `flows`
and does not reset `segment` (and row `i` is appended to no segment);
otherwise row `i` is appended to `segment`. -/
def segLoop : List Packet → Packet → List Packet → List (List Packet) →
    List (List Packet) × List Packet
  | [], _, segment, flows => (flows, segment)
  | p :: rest, prev, segment, flows =>
    if time_threshold < p.timestamp - prev.timestamp then
      segLoop rest p segment (flows ++ [segment])
    else
      segLoop rest p (segment ++ [p]) flows

/-- The `flows` list built for one retained group: `segment` starts as
`[group_df.iloc[0]]`, the loop above runs over rows `1..`, and the final
`if segment: flows.append(...)` closes whatever `segment` holds. -/
def flowsOf : List Packet → List (List Packet)
  | [] => []
  | p0 :: rest =>
    let r := segLoop rest p0 [p0] []
    if r.2 = [] then r.1 else r.1 ++ [r.2]

/-- Largest timestamp of a list of packets (`flow["timestamp"].max()`);
0 on the empty list, which the code never reaches. -/
def tsMax : List Packet → ℚ
  | [] => 0
  | p :: ps => ps.foldl (fun a q => max a q.timestamp) p.timestamp

/-- Smallest timestamp of a list of packets (`flow["timestamp"].min()`);
0 on the empty list, which the code never reaches. -/
def tsMin : List Packet → ℚ
  | [] => 0
  | p :: ps => ps.foldl (fun a q => min a q.timestamp) p.timestamp

/-- One entry of `flows_summary`: the dictionary literal built for each
`flow in flows` (lines 140-151 of process.py), with exactly its keys. -/
structure FlowSummary where
  src_ip : String
  dst_ip : String
  src_port : Option ℤ
  dst_port : Option ℤ
  protocol : String
  num_packets_src : ℕ
  num_packets_dst : ℕ
  bytes_src : ℤ
  bytes_dst : ℤ
  duration : ℚ
deriving DecidableEq, Repr

/-- The summary dictionary of one flow segment:
`num_packets_src = (flow["src_ip"] == src).sum()`,
`bytes_src = flow.loc[flow["src_ip"] == src, "bytes"].sum()`, and
symmetrically for `dst`;
`duration = (flow["timestamp"].max() - flow["timestamp"].min()).total_seconds()`. -/
def summaryRow (k : FlowKey) (flow : List Packet) : FlowSummary :=
  { src_ip := k.src_ip, dst_ip := k.dst_ip, src_port := k.src_port,
    dst_port := k.dst_port, protocol := k.protocol,
    num_packets_src := (flow.filter (fun p => p.src_ip == k.src_ip)).length,
    num_packets_dst := (flow.filter (fun p => p.dst_ip == k.dst_ip)).length,
    bytes_src := ((flow.filter (fun p => p.src_ip == k.src_ip)).map Packet.bytes).sum,
    bytes_dst := ((flow.filter (fun p => p.dst_ip == k.dst_ip)).map Packet.bytes).sum,
    duration := tsMax flow - tsMin flow }

/-- The summary entries contributed by one retained group, in segment
emission order. -/
def summaryRows (k : FlowKey) (flows : List (List Packet)) : List FlowSummary :=
  flows.map (summaryRow k)

/-- `df.groupby([...])` over the packet table: pandas drops rows whose key
contains a NaN (here: a missing port), and each group is then sorted by
timestamp.  Groups are listed by first occurrence of their key. -/
def groupsOf (pkts : List Packet) : List (FlowKey × List Packet) :=
  let keyed := pkts.filter (fun p => p.src_port.isSome && p.dst_port.isSome)
  ((keyed.map packetKey).dedup).map
    (fun k => (k, sortByTime (keyed.filter (fun p => packetKey p == k))))

/-- `grouped_dfs = {k: v for k, v in grouped_dfs.items() if len(v) > 1}`
followed by the per-group segmentation and summary loop: only groups with
more than one packet contribute segments and summary rows. -/
def segmentAndSummarize (gs : List (FlowKey × List Packet)) : List FlowSummary :=
  (gs.filter (fun kv => 1 < kv.2.length)).flatMap
    (fun kv => summaryRows kv.1 (flowsOf kv.2))

/-- The whole flow-reconstruction pass of `process_tshark_output`, from the
parsed packet table to the `flows_summary` rows. -/
def process_tshark_output (pkts : List Packet) : List FlowSummary :=
  segmentAndSummarize (groupsOf pkts)

/-! ### Protocol normalization (line 95 of process.py) -/

/-- The static `protocol_mapping` dictionary: IANA protocol numbers to
canonical names. -/
def protocol_mapping (n : ℤ) : Option String :=
  if n = 1 then some "ICMP"
  else if n = 2 then some "IGMP"
  else if n = 6 then some "TCP"
  else if n = 17 then some "UDP"
  else if n = 41 then some "IPv6"
  else if n = 47 then some "GRE"
  else if n = 50 then some "ESP"
  else if n = 51 then some "AH"
  else if n = 58 then some "IPv6-ICMP"
  else if n = 88 then some "EIGRP"
  else if n = 89 then some "OSPFIGP"
  else if n = 132 then some "SCTP"
  else if n = 137 then some "MPLS-in-IP"
  else none

/-- `protocol_mapping.get(int(x), f"Unknown Protocol Codification: {x}")`
for an integer protocol number `x`. -/
def protocolLabel (n : ℤ) : String :=
  (protocol_mapping n).getD ("Unknown Protocol Codification: " ++ toString n)

/-- `int(x)` applied to a protocol cell of the parsed table: a missing value
(NaN after CSV parsing) or a non-numeric cell raises `ValueError`, modelled
as `Except.error`; an integer value is returned. -/
def intOfCell : Option ℤ → Except String ℤ
  | none => .error "cannot convert protocol value to integer"
  | some n => .ok n

/-- The body of the lambda at line 95 applied to one protocol cell. -/
def convertProtocol (cell : Option ℤ) : Except String String := do
  let n ← intOfCell cell
  pure (protocolLabel n)

/-- `df['protocol'].apply(...)`: the conversion applied to every cell of the
protocol column; a raised exception aborts the whole pass. -/
def convertProtocols (cells : List (Option ℤ)) : Except String (List String) :=
  cells.mapM convertProtocol

/-! ### `int_to_ip` (lines 12-22 of process.py) -/

/-- A raw cell value of the `src_ip` / `dst_ip` column: an integer or a
string. -/
inductive RawVal where
  | intVal (n : ℤ)
  | strVal (s : String)
deriving DecidableEq, Repr

/-- `socket.inet_ntoa` on the 4 bytes of a 32-bit value: dotted-decimal
notation, most significant byte first (`struct.pack("!I", ...)` is
big-endian). -/
def ipRender (n : ℕ) : String :=
  toString (n / 16777216 % 256) ++ "." ++ toString (n / 65536 % 256) ++ "."
    ++ toString (n / 256 % 256) ++ "." ++ toString (n % 256)

/-- `socket.inet_ntoa(struct.pack("!I", n))`: `struct.pack("!I", n)` raises
unless `0 ≤ n < 2^32`. -/
def ipDecode (n : ℤ) : Option String :=
  if 0 ≤ n ∧ n < 4294967296 then some (ipRender n.toNat) else none

/-- Decimal digits to a number; `none` on a non-digit. -/
def digitsToNat : List Char → ℕ → Option ℕ
  | [], acc => some acc
  | c :: cs, acc =>
    if c.isDigit then digitsToNat cs (acc * 10 + (c.toNat - 48)) else none

/-- `int(ip)` on a string cell: Python's integer parse — surrounding spaces
stripped, an optional sign, then a non-empty run of decimal digits — and
`none` when it raises `ValueError`. -/
def pyIntOfString (s : String) : Option ℤ :=
  let cs := (((s.data.dropWhile (· = ' ')).reverse.dropWhile (· = ' ')).reverse)
  match cs with
  | '-' :: ds =>
    if ds.isEmpty then none else (digitsToNat ds 0).map (fun n => -(n : ℤ))
  | '+' :: ds =>
    if ds.isEmpty then none else (digitsToNat ds 0).map (fun n => (n : ℤ))
  | ds =>
    if ds.isEmpty then none else (digitsToNat ds 0).map (fun n => (n : ℤ))

/-- `int_to_ip`: convert an integer IP address to dotted notation; on any
failure (`int(ip)` raises, or the value is not a 32-bit unsigned integer)
the `except` branch returns the argument unchanged. -/
def int_to_ip : RawVal → RawVal
  | .intVal n =>
    match ipDecode n with
    | some s => .strVal s
    | none => .intVal n
  | .strVal s =>
    match pyIntOfString s with
    | none => .strVal s
    | some n =>
      match ipDecode n with
      | some t => .strVal t
      | none => .strVal s

/-- The inputs on which the decoding inside `int_to_ip` fails: the
conversion to an integer raises, or packing as an unsigned 32-bit value
raises. -/
def decodeFails : RawVal → Bool
  | .intVal n => (ipDecode n).isNone
  | .strVal s =>
    match pyIntOfString s with
    | none => true
    | some n => (ipDecode n).isNone

/-! ### The summary rows as a keyed table

`pd.DataFrame(flows_summary)` turns each summary dictionary into a row whose
columns are the dictionary's keys; `rowEntries` is that keyed view of a
`FlowSummary`. -/

/-- A cell value of the summary table. -/
inductive FVal where
  | str (v : String)
  | int (v : ℤ)
  | nat (v : ℕ)
  | optInt (v : Option ℤ)
  | rat (v : ℚ)
deriving DecidableEq, Repr

/-- The (column, value) pairs of one summary row, in the order of the
dictionary literal at lines 140-151 of process.py. -/
def rowEntries (fs : FlowSummary) : List (String × FVal) :=
  [("src_ip", .str fs.src_ip), ("dst_ip", .str fs.dst_ip),
   ("src_port", .optInt fs.src_port), ("dst_port", .optInt fs.dst_port),
   ("protocol", .str fs.protocol),
   ("num_packets_src", .nat fs.num_packets_src),
   ("num_packets_dst", .nat fs.num_packets_dst),
   ("bytes_src", .int fs.bytes_src), ("bytes_dst", .int fs.bytes_dst),
   ("duration", .rat fs.duration)]

/-! ### The spec's inter-arrival-time median

The following definitions follow the specification's words, not the code
(the code computes no inter-arrival statistic); they exist to compare the
specified feature against the rows the code produces. -/

/-- Consecutive differences of a list of timestamps. -/
def consecutiveDiffs : List ℚ → List ℚ
  | a :: b :: rest => (b - a) :: consecutiveDiffs (b :: rest)
  | _ => []

/-- Insert into a sorted list of rationals. -/
def insertQ (x : ℚ) : List ℚ → List ℚ
  | [] => [x]
  | y :: ys => if x ≤ y then x :: y :: ys else y :: insertQ x ys

/-- Sort a list of rationals ascending. -/
def sortQ (l : List ℚ) : List ℚ :=
  l.foldr insertQ []

/-- Median of a list of rationals: middle element of the sorted list, or the
mean of the two middle elements for even length; 0 for the empty list. -/
def medianQ (l : List ℚ) : ℚ :=
  let s := sortQ l
  let n := s.length
  if n = 0 then 0
  else if n % 2 = 1 then s.getD (n / 2) 0
  else (s.getD (n / 2 - 1) 0 + s.getD (n / 2) 0) / 2

/-- Round a rational to 5 decimal places (ties rounded up; the spec fixes
only the precision). -/
def round5 (q : ℚ) : ℚ :=
  ((q * 100000 + 1 / 2).num.fdiv (q * 100000 + 1 / 2).den : ℤ) / 100000

/-- Modelled from the spec: "inter-arrival sequence = consecutive timestamp
differences within the segment, with the first element defined as 0 by
convention; report its median, rounded to a fixed precision (5 decimal
places)". -/
def iatMedianSpec (seg : List Packet) : ℚ :=
  round5 (medianQ (0 :: consecutiveDiffs (seg.map Packet.timestamp)))

/-! ### Concrete inputs used by the scenario claims -/

/-- A packet of the single flow key used by the scenario inputs. -/
def mkP (t : ℚ) (b : ℤ) : Packet :=
  { timestamp := t, src_ip := "10.0.0.1", dst_ip := "10.0.0.2",
    src_port := some 1111, dst_port := some 80, protocol := "TCP", bytes := b }

/-- The scenario group: one flow key, timestamps [0, 5, 40, 42] seconds. -/
def g4 : List Packet := [mkP 0 100, mkP 5 200, mkP 40 300, mkP 42 400]

/-- The flow key of the scenario group. -/
def k4 : FlowKey := packetKey (mkP 0 100)

/-- A second concrete group: timestamps [0, 1, 4], all gaps under the
threshold, so the code keeps it in one segment. -/
def g3 : List Packet := [mkP 0 10, mkP 1 20, mkP 4 30]

/-! ### Helper lemmas -/

theorem mem_insertByTime (q p : Packet) (l : List Packet) :
    q ∈ insertByTime p l ↔ q = p ∨ q ∈ l := by
  induction l with
  | nil => simp [insertByTime]
  | cons r rs ih =>
    simp only [insertByTime]
    split
    · simp [List.mem_cons]
    · simp only [List.mem_cons, ih]
      tauto

theorem mem_sortByTime (q : Packet) (l : List Packet) :
    q ∈ sortByTime l ↔ q ∈ l := by
  induction l with
  | nil => simp [sortByTime]
  | cons p ps ih =>
    show q ∈ insertByTime p (sortByTime ps) ↔ _
    rw [mem_insertByTime, ih]
    simp [List.mem_cons]

theorem segLoop_forall (P : Packet → Prop) (rest : List Packet) :
    ∀ prev segment flows,
      (∀ s ∈ flows, ∀ p ∈ s, P p) → (∀ p ∈ segment, P p) →
      (∀ p ∈ rest, P p) →
      (∀ s ∈ (segLoop rest prev segment flows).1, ∀ p ∈ s, P p) ∧
      (∀ p ∈ (segLoop rest prev segment flows).2, P p) := by
  induction rest with
  | nil => intro prev segment flows hf hs _; exact ⟨hf, hs⟩
  | cons p rs ih =>
    intro prev segment flows hf hs hr
    rw [segLoop]
    split
    · refine ih p segment (flows ++ [segment]) ?_ hs ?_
      · intro s hsm
        rcases List.mem_append.1 hsm with h | h
        · exact hf s h
        · simp only [List.mem_singleton] at h
          subst h; exact hs
      · intro x hx; exact hr x (List.mem_cons_of_mem _ hx)
    · refine ih p (segment ++ [p]) flows hf ?_ ?_
      · intro x hx
        rcases List.mem_append.1 hx with h | h
        · exact hs x h
        · simp only [List.mem_singleton] at h
          subst h; exact hr x (List.mem_cons_self _ _)
      · intro x hx; exact hr x (List.mem_cons_of_mem _ hx)

theorem flowsOf_forall (P : Packet → Prop) (g : List Packet)
    (hg : ∀ p ∈ g, P p) : ∀ s ∈ flowsOf g, ∀ p ∈ s, P p := by
  cases g with
  | nil => simp [flowsOf]
  | cons p0 rest =>
    have h := segLoop_forall P rest p0 [p0] []
      (by simp)
      (by simpa using hg p0 (List.mem_cons_self _ _))
      (fun x hx => hg x (List.mem_cons_of_mem _ hx))
    rw [flowsOf]
    split
    · exact h.1
    · intro s hs
      rcases List.mem_append.1 hs with h1 | h1
      · exact h.1 s h1
      · simp only [List.mem_singleton] at h1
        subst h1; exact h.2

theorem groupsOf_key (pkts : List Packet) (k : FlowKey) (g : List Packet)
    (h : (k, g) ∈ groupsOf pkts) : ∀ p ∈ g, packetKey p = k := by
  simp only [groupsOf, List.mem_map] at h
  obtain ⟨k', _, heq⟩ := h
  injection heq with h1 h2
  subst h1
  intro p hp
  rw [← h2, mem_sortByTime] at hp
  exact eq_of_beq (List.mem_filter.1 hp).2

/-! ### The claims -/

section ClaimTheorems

attribute [local semireducible] Rat.sub Rat.add Rat.mul Rat.inv

/-- C1: the partition property fails on the code.  On the retained group
with timestamps [0, 5, 40, 42] the emitted segments, concatenated, do not
reproduce the sorted group: the packet at 40 s appears in no segment, and
the packets at 0 s and 5 s each appear in two segments (the loop never
resets `segment` after emitting it and appends the boundary packet to no
segment). -/
theorem C1_partition_fails_on_code :
    groupsOf g4 = [(k4, g4)] ∧
    (flowsOf g4).flatMap id ≠ g4 ∧
    mkP 40 300 ∉ (flowsOf g4).flatMap id ∧
    ((flowsOf g4).flatMap id).count (mkP 0 100) = 2 := by decide

/-- C2: the scenario fails on the code.  For the single retained group with
timestamps [0, 5, 40, 42] and threshold 30 the code emits the segments
[[0, 5], [0, 5, 42]] with durations 5 and 42 seconds, not the specified
[[0, 5], [40, 42]] with durations 5 and 2. -/
theorem C2_scenario_fails_on_code :
    flowsOf g4 = [[mkP 0 100, mkP 5 200], [mkP 0 100, mkP 5 200, mkP 42 400]] ∧
    (process_tshark_output g4).map FlowSummary.duration = [5, 42] := by decide

/-- C3: the within-segment gap bound fails on the code.  The second emitted
segment of the group with timestamps [0, 5, 40, 42] contains the consecutive
packets at 5 s and 42 s, whose gap of 37 s exceeds the 30 s threshold. -/
theorem C3_gap_bound_fails_on_code :
    [mkP 0 100, mkP 5 200, mkP 42 400] ∈ flowsOf g4 ∧
    time_threshold < (mkP 42 400).timestamp - (mkP 5 200).timestamp := by decide

/-- C4 counterexample: a summary row carries no inter-arrival-time median.
On the group with timestamps [0, 1, 4] the spec's median (of [0, 1, 3],
rounded to 5 places) is 1, but no column of the produced row holds the
value 1 in any of the table's value kinds. -/
theorem C4_no_iat_median_in_row :
    iatMedianSpec g3 = 1 ∧
    process_tshark_output g3 = [summaryRow k4 g3] ∧
    ∀ kv ∈ rowEntries (summaryRow k4 g3),
      kv.2 ≠ FVal.rat (iatMedianSpec g3) ∧ kv.2 ≠ FVal.int 1 ∧
      kv.2 ≠ FVal.nat 1 := by decide

/-- C4 amended: every output row has exactly the ten columns src_ip,
dst_ip, src_port, dst_port, protocol, num_packets_src, num_packets_dst,
bytes_src, bytes_dst and duration; no inter-arrival-time statistic is
computed or included. -/
theorem C4_row_columns (fs : FlowSummary) :
    (rowEntries fs).map Prod.fst =
      ["src_ip", "dst_ip", "src_port", "dst_port", "protocol",
       "num_packets_src", "num_packets_dst", "bytes_src", "bytes_dst",
       "duration"] := rfl

/-- C6: the minimum-packet filter.  A group with fewer than 2 packets is
dropped before segmentation and contributes no summary rows; a group with
at least 2 packets is retained and contributes the rows of its segments. -/
theorem C6_min_packet_filter (gs : List (FlowKey × List Packet)) :
    segmentAndSummarize gs =
      gs.flatMap (fun kv =>
        if 2 ≤ kv.2.length then summaryRows kv.1 (flowsOf kv.2) else []) := by
  induction gs with
  | nil => rfl
  | cons kv t ih =>
    by_cases h : 1 < kv.2.length
    · have h2 : 2 ≤ kv.2.length := h
      simp only [segmentAndSummarize, List.filter_cons, List.flatMap_cons] at *
      simp [h, h2, ih]
    · have h2 : ¬2 ≤ kv.2.length := h
      simp only [segmentAndSummarize, List.filter_cons, List.flatMap_cons] at *
      simp [h, h2, ih]

/-- C7: a protocol number outside the static table maps, without error, to
the fallback label embedding the number; in particular 253 renders as
"Unknown Protocol Codification: 253". -/
theorem C7_unknown_protocol_fallback :
    (∀ n : ℤ, protocol_mapping n = none →
      protocolLabel n = "Unknown Protocol Codification: " ++ toString n) ∧
    protocolLabel 253 = "Unknown Protocol Codification: 253" := by
  constructor
  · intro n h
    simp [protocolLabel, h]
  · decide

/-- C7 witness: 253 is outside the table and renders as the fallback. -/
theorem C7_witness :
    protocol_mapping 253 = none ∧
    protocolLabel 253 = "Unknown Protocol Codification: " ++ toString (253 : ℤ) :=
  ⟨by decide, C7_unknown_protocol_fallback.1 253 (by decide)⟩

/-- C8: `int_to_ip` decodes 2130706433 as big-endian 32 bits to
"127.0.0.1", and on every input whose decoding fails it returns the
original value unchanged rather than raising. -/
theorem C8_int_to_ip_decode :
    int_to_ip (.intVal 2130706433) = .strVal "127.0.0.1" ∧
    ∀ v, decodeFails v = true → int_to_ip v = v := by
  refine ⟨by decide, ?_⟩
  intro v h
  cases v with
  | intVal n =>
    rw [decodeFails, Option.isNone_iff_eq_none] at h
    simp [int_to_ip, h]
  | strVal s =>
    rw [decodeFails] at h
    cases hp : pyIntOfString s with
    | none => simp [int_to_ip, hp]
    | some n =>
      rw [hp] at h
      rw [Option.isNone_iff_eq_none] at h
      simp [int_to_ip, hp, h]

/-- C8 witness: a dotted-quad string does not parse as an integer, and
`int_to_ip` returns it unchanged. -/
theorem C8_witness :
    decodeFails (.strVal "10.0.0.1") = true ∧
    int_to_ip (.strVal "10.0.0.1") = .strVal "10.0.0.1" :=
  ⟨by decide, C8_int_to_ip_decode.2 _ (by decide)⟩

/-- C9: the directional statistics are vacuous.  Every packet of a group
carries the key's source and destination address, so in every summary row
of a segment the source-side and destination-side packet counts both equal
the segment's packet count and both byte counts equal the segment's total
byte sum. -/
theorem C9_directional_stats_vacuous (pkts : List Packet) (k : FlowKey)
    (g seg : List Packet) (hg : (k, g) ∈ groupsOf pkts)
    (hs : seg ∈ flowsOf g) :
    (∀ p ∈ g, p.src_ip = k.src_ip ∧ p.dst_ip = k.dst_ip) ∧
    (summaryRow k seg).num_packets_src = seg.length ∧
    (summaryRow k seg).num_packets_dst = seg.length ∧
    (summaryRow k seg).bytes_src = (seg.map Packet.bytes).sum ∧
    (summaryRow k seg).bytes_dst = (seg.map Packet.bytes).sum := by
  have hkey := groupsOf_key pkts k g hg
  have hall : ∀ p ∈ seg, packetKey p = k :=
    fun p hp => flowsOf_forall (fun q => packetKey q = k) g hkey seg hs p hp
  have hsrc : seg.filter (fun p => p.src_ip == k.src_ip) = seg :=
    List.filter_eq_self.mpr (fun p hp => by
      have h1 := congrArg FlowKey.src_ip (hall p hp)
      simp only [packetKey] at h1
      simp [h1])
  have hdst : seg.filter (fun p => p.dst_ip == k.dst_ip) = seg :=
    List.filter_eq_self.mpr (fun p hp => by
      have h1 := congrArg FlowKey.dst_ip (hall p hp)
      simp only [packetKey] at h1
      simp [h1])
  refine ⟨fun p hp => ?_, ?_, ?_, ?_, ?_⟩
  · have h1 := congrArg FlowKey.src_ip (hkey p hp)
    have h2 := congrArg FlowKey.dst_ip (hkey p hp)
    simp only [packetKey] at h1 h2
    exact ⟨h1, h2⟩
  all_goals simp [summaryRow, hsrc, hdst]

/-- C9 witness: on the scenario group, the first emitted segment's row
counts both directions as the whole segment. -/
theorem C9_witness :
    (k4, g4) ∈ groupsOf g4 ∧ [mkP 0 100, mkP 5 200] ∈ flowsOf g4 ∧
    ((summaryRow k4 [mkP 0 100, mkP 5 200]).num_packets_src =
        [mkP 0 100, mkP 5 200].length ∧
      (summaryRow k4 [mkP 0 100, mkP 5 200]).num_packets_dst =
        [mkP 0 100, mkP 5 200].length ∧
      (summaryRow k4 [mkP 0 100, mkP 5 200]).bytes_src =
        ([mkP 0 100, mkP 5 200].map Packet.bytes).sum ∧
      (summaryRow k4 [mkP 0 100, mkP 5 200]).bytes_dst =
        ([mkP 0 100, mkP 5 200].map Packet.bytes).sum) :=
  ⟨by decide, by decide,
    (C9_directional_stats_vacuous g4 k4 g4 [mkP 0 100, mkP 5 200]
      (by decide) (by decide)).2⟩

/-- C10: a protocol cell that is missing or not convertible to an integer
makes the conversion of the protocol column raise, so the whole processing
pass fails instead of skipping the row or producing a fallback label. -/
theorem C10_bad_protocol_cell_raises (cells : List (Option ℤ))
    (h : none ∈ cells) :
    convertProtocols cells =
      .error "cannot convert protocol value to integer" := by
  suffices hl : ∀ acc, List.mapM.loop convertProtocol cells acc =
      .error "cannot convert protocol value to integer" from hl []
  induction cells with
  | nil => cases h
  | cons c cs ih =>
    intro acc
    cases c with
    | none => rfl
    | some n =>
      have hcs : none ∈ cs := by
        rcases List.mem_cons.1 h with h1 | h1
        · cases h1
        · exact h1
      exact ih hcs (protocolLabel n :: acc)

/-- C10 witness: a column holding a valid cell and a NaN cell makes the
pass fail. -/
theorem C10_witness :
    none ∈ [some (6 : ℤ), none] ∧
    convertProtocols [some (6 : ℤ), none] =
      .error "cannot convert protocol value to integer" :=
  ⟨by decide, C10_bad_protocol_cell_raises [some 6, none] (by decide)⟩

end ClaimTheorems

end Process
